import Mathlib

/-!
# Verification of the todo-list helper logic

Shallow embedding of the pure helper functions of the todo-list
application (`constants.py`, `db_helpers.py`, `storage_helpers.py`,
`ui_components.py`) together with proofs of the specified properties.

Conventions used throughout the embedding:
* Python `int` values that are non-negative by construction (sizes,
  minute counts, ids) are modelled as `Nat`; timestamps are `Int`.
* Python `str` is `String`; Python `None`-able fields are `Option`.
* Python string comparison (`<` on `str`, used by the sort keys) is
  lexicographic comparison of code points, modelled as the lexicographic
  order on `List Char`.
* Python float arithmetic in the size formatting divides by powers of
  two, which is exact in binary floating point, so it is modelled by
  exact rational computations with CPython's rounding mode
  (`format(..., '.1f')` rounds to nearest with ties to even).  The
  subtask percentage divides by an arbitrary count and is modelled by
  exact binary64 semantics (53-bit round to nearest, ties to even, per
  operation) followed by CPython's correctly-rounded one-decimal
  `round`.
* Python `sorted` is a stable sort whose key tuples compare
  lexicographically; it is modelled by `List.mergeSort` (stable) with a
  boolean comparison `le a b = (key a ≤ key b)`, and with
  `le a b = (key b ≤ key a)` for `reverse=True` (a stable reverse sort
  keeps elements with equal keys in input order, it does not flip them).
-/

namespace TodoApp

/-! ## Rendering of Python numbers -/

/-- Python `str(n)` for a non-negative `int`: the decimal digit string,
most significant digit first (rendered via `Nat.toDigits`, Lean's own
decimal printer for natural numbers). -/
def pyNatStr (n : Nat) : String :=
  String.mk (Nat.toDigits 10 n)

/-- Rendering of the Python expression `f"{num/den:.1f}"` for natural
`num` and positive `den`.  The uses in the source divide by `1024`
or `1024*1024`, where the float quotient is exact, so CPython's
correctly-rounded formatting agrees with exact rational rounding to one
decimal place with ties to even, which is what is computed here. -/
def pyFix1OfDiv (num den : Nat) : String :=
  let t := num * 10
  let q := t / den
  let r := t % den
  let n := if 2 * r < den then q
           else if den < 2 * r then q + 1
           else if q % 2 = 0 then q else q + 1
  pyNatStr (n / 10) ++ "." ++ pyNatStr (n % 10)

/-- The spec's alternative reading of one-decimal rounding: ties rounded
half away from zero (for the non-negative quotients at hand: upward),
applied to the exact rational `num/den`. -/
def roundHalfAwayFromZero1 (num den : Nat) : ℚ :=
  let t := num * 10
  let q := t / den
  let r := t % den
  let n := if 2 * r < den then q else q + 1
  (n : ℚ) / 10

/-! ### Binary64 model

The subtask completion percentage is the one place where the source
performs float arithmetic whose operands are not exact in binary
floating point (`completed / total * 100` divides by an arbitrary
`total`).  It is therefore modelled by exact binary64 semantics: every
operation rounds its exact rational result to 53 significant bits,
round to nearest, ties to even.  The exponent range is unbounded in the
model (overflow and subnormals cannot occur for any realisable subtask
count).  All computations below are on natural numbers so that concrete
instances evaluate by `decide`; a float value is carried as a pair
`(numerator, power-of-two denominator)` of its exact rational value. -/

/-- Integer rounding of `a / b` to the nearest integer, ties to even
(`b > 0`). -/
def rndNE (a b : Nat) : Nat :=
  let q := a / b
  let r := a % b
  if 2 * r < b then q
  else if b < 2 * r then q + 1
  else if q % 2 = 0 then q else q + 1

/-- Number of binary digits of `n` (0 for `n = 0`), via the fuel-based
`Nat.toDigits` so that it evaluates inside `decide`. -/
def bitLen (n : Nat) : Nat :=
  if n = 0 then 0 else (Nat.toDigits 2 n).length

/-- Binary64 rounding of the non-negative rational `a / b` (`b > 0`):
the significand is scaled into `[2^52, 2^53)` using the bit lengths of
`a` and `b` (with a one-step correction read off the floor of the
scaled quotient) and rounded to nearest, ties to even.  The result is
the exact value of the rounded double, as a `(numerator,
power-of-two denominator)` pair. -/
def flN (a b : Nat) : Nat × Nat :=
  if a = 0 then (0, 1)
  else
    let s0 : Int := 52 + (bitLen b : Int) - (bitLen a : Int)
    let A := a * 2 ^ s0.toNat
    let B := b * 2 ^ (-s0).toNat
    let f := A / B
    let p := if f < 2 ^ 52 then (2 * A, B, s0 + 1)
             else if 2 ^ 53 ≤ f then (A, 2 * B, s0 - 1)
             else (A, B, s0)
    let m := rndNE p.1 p.2.1
    let s := p.2.2
    if 0 ≤ s then (m, 2 ^ s.toNat) else (m * 2 ^ (-s).toNat, 1)

/-- The exact rational value of a dyadic `(numerator, denominator)`
pair. -/
def ratOfPair (p : Nat × Nat) : ℚ :=
  (p.1 : ℚ) / p.2

/-- Binary64 multiplication of a float (dyadic pair) by the exact
constant 100: the product is re-rounded to 53 bits. -/
def float64Mul100 (p : Nat × Nat) : Nat × Nat :=
  flN (p.1 * 100) p.2

/-- Python `round(x, 1)` on a non-negative float given as a dyadic
pair: the represented value is rounded to the nearest multiple of
`1/10`, ties to even (CPython rounds correctly on the exact value of
the double), and the resulting decimal is returned as the nearest
double. -/
def pyRoundFloat1 (p : Nat × Nat) : Nat × Nat :=
  flN (rndNE (p.1 * 10) p.2) 10

/-- Rendering of `f"{x}"` for a float produced by `round(_, 1)`: the
shortest round-trip repr is the one-decimal string nearest to the
represented value.  Used for the subtask percentage inside
`render_subtask_progress`. -/
def ratRepr1 (q : ℚ) : String :=
  let n := (q * 10 + 1 / 2).floor.toNat
  pyNatStr (n / 10) ++ "." ++ pyNatStr (n % 10)

/-! ## Data model

Rows as the backend returns them to the client helpers.  `todo_tags` is
the join table: each row carries the raw `tag_id` and, when the joined
fetch included it, the `tags` record with the tag name. -/

structure Tag where
  name : String
deriving DecidableEq

structure TodoTagRow where
  tag_id : Nat
  tags : Option Tag
deriving DecidableEq

structure Todo where
  task : String
  description : Option String
  completed : Bool
  priority : String
  due_date : Option String
  created_at : String
  todo_tags : List TodoTagRow
deriving DecidableEq

structure Subtask where
  title : String
  completed : Bool
deriving DecidableEq

/-! ## Constants (`constants.py`) -/

def MAX_FILE_SIZE_MB : Nat := 10

def MAX_FILE_SIZE_BYTES : Nat := MAX_FILE_SIZE_MB * 1024 * 1024

def ALLOWED_FILE_TYPES : List String :=
  ["pdf", "doc", "docx", "txt", "md",
   "jpg", "jpeg", "png", "gif", "svg",
   "zip", "rar", "7z",
   "csv", "xlsx", "xls",
   "mp4", "mov", "avi",
   "mp3", "wav"]

def FILE_ICONS : List (String × String) :=
  [("pdf", "📄"),
   ("doc", "📝"), ("docx", "📝"), ("txt", "📝"), ("md", "📝"),
   ("jpg", "🖼️"), ("jpeg", "🖼️"), ("png", "🖼️"), ("gif", "🖼️"), ("svg", "🖼️"),
   ("zip", "📦"), ("rar", "📦"), ("7z", "📦"),
   ("csv", "📊"), ("xlsx", "📊"), ("xls", "📊"),
   ("mp4", "🎥"), ("mov", "🎥"), ("avi", "🎥"),
   ("mp3", "🎵"), ("wav", "🎵"),
   ("default", "📎")]

/-! ## Formatting helpers (`db_helpers.py`) -/

/-- `db_helpers.format_time_spent`: format minutes into a human-readable
string such as `"45m"`, `"2h"` or `"2h 30m"`. -/
def format_time_spent (minutes : Nat) : String :=
  if minutes < 60 then pyNatStr minutes ++ "m"
  else
    let hours := minutes / 60
    let remaining_minutes := minutes % 60
    if remaining_minutes = 0 then pyNatStr hours ++ "h"
    else pyNatStr hours ++ "h " ++ pyNatStr remaining_minutes ++ "m"

/-- `db_helpers.format_file_size`: format a byte count into a
human-readable string such as `"243 B"`, `"1.5 KB"` or `"1.5 MB"`. -/
def format_file_size (bytes : Nat) : String :=
  if bytes < 1024 then pyNatStr bytes ++ " B"
  else if bytes < 1024 * 1024 then pyFix1OfDiv bytes 1024 ++ " KB"
  else pyFix1OfDiv bytes (1024 * 1024) ++ " MB"

/-- Python `.days` of a timedelta given in seconds: floor division by
86400 (floor also for negative spans). -/
def timedeltaDays (seconds : Int) : Int :=
  Int.fdiv seconds 86400

/-- `db_helpers.get_due_date_status`.  The `datetime` values are
modelled as timestamps in seconds (`fromisoformat` parsing is outside
the model); `now` is the current timestamp in the same clock, matching
the timezone-aware comparison of the source.  Returns the overdue /
due-soon / on-track indicator, or `""` without a due date. -/
def get_due_date_status (due_date : Option Int) (now : Int) : String :=
  match due_date with
  | none => ""
  | some due =>
    if due < now then "🔴"
    else if timedeltaDays (due - now) ≤ 3 then "🟡"
    else "✅"

/-! ## Search and tag filtering (`db_helpers.py`) -/

/-- Python `s.lower()` (ASCII-relevant part, via `Char.toLower`). -/
def lowerStr (s : String) : String :=
  String.mk (s.data.map Char.toLower)

/-- Python `q in s` for strings: substring test. -/
def isSubstr (q s : String) : Bool :=
  decide (q.data <:+: s.data)

/-- The lowercased tag names attached to a todo:
`[t['tags']['name'].lower() for t in todo['todo_tags'] if t.get('tags')]`. -/
def tagNamesLower (todo : Todo) : List String :=
  (todo.todo_tags.filterMap (fun r => r.tags)).map (fun tg => lowerStr tg.name)

/-- The loop body of `db_helpers.search_todos`: each todo is appended on
the first of the three field checks that matches (`continue` after each
append), mirroring the if/if/if-with-continue structure of the source.
`q` is the already-lowercased query.  The description check first tests
the field for Python truthiness (present and non-empty), the tag check
first tests the `todo_tags` list for non-emptiness. -/
def searchFilter (q : String) : List Todo → List Todo
  | [] => []
  | todo :: rest =>
    if isSubstr q (lowerStr todo.task) then
      todo :: searchFilter q rest
    else if (match todo.description with
             | some d => d != "" && isSubstr q (lowerStr d)
             | none => false) then
      todo :: searchFilter q rest
    else if !todo.todo_tags.isEmpty
            && (tagNamesLower todo).any (fun nm => isSubstr q nm) then
      todo :: searchFilter q rest
    else
      searchFilter q rest

/-- `db_helpers.search_todos`: client-side free-text search.  An empty
(falsy) query returns the input unchanged; otherwise the query is
lowercased and the list is scanned. -/
def search_todos (todos : List Todo) (search_query : String) : List Todo :=
  if search_query = "" then todos
  else searchFilter (lowerStr search_query) todos

/-- The search predicate as the spec states it: the (lowercased) query
occurs in the lowercased task text, or in the lowercased description if
one is present, or in some lowercased associated tag name. -/
def matchesQuery (q : String) (todo : Todo) : Bool :=
  isSubstr q (lowerStr todo.task)
  || (match todo.description with
      | some d => isSubstr q (lowerStr d)
      | none => false)
  || (tagNamesLower todo).any (fun nm => isSubstr q nm)

/-- The tag ids attached to a todo: `[t['tag_id'] for t in todo['todo_tags']]`. -/
def todoTagIds (todo : Todo) : List Nat :=
  todo.todo_tags.map (fun r => r.tag_id)

/-- The loop body of `db_helpers.filter_todos_by_tags`: a todo is kept
when its (truthily non-empty) tag-row list contains any of the selected
ids. -/
def tagFilterLoop (tag_ids : List Nat) : List Todo → List Todo
  | [] => []
  | todo :: rest =>
    if !todo.todo_tags.isEmpty
        && tag_ids.any (fun i => (todoTagIds todo).contains i) then
      todo :: tagFilterLoop tag_ids rest
    else
      tagFilterLoop tag_ids rest

/-- `db_helpers.filter_todos_by_tags`: keep the todos having ANY of the
specified tags; an empty (falsy) selection returns the input unchanged. -/
def filter_todos_by_tags (todos : List Todo) (tag_ids : List Nat) : List Todo :=
  if tag_ids.isEmpty then todos
  else tagFilterLoop tag_ids todos

/-! ## Sorting (`ui_components.py`) -/

/-- `ui_components.get_priority_sort_order`:
`PRIORITIES.get(priority, PRIORITIES['medium'])['sort_order']`, i.e. the
severity rank 1/2/3 for high/medium/low with the medium rank for unknown
strings. -/
def get_priority_sort_order (priority : String) : Nat :=
  if priority = "low" then 3
  else if priority = "medium" then 2
  else if priority = "high" then 1
  else 2

/-- The due-date component of the sort keys:
`x.get('due_date') or '9999-12-31'` (a missing — or Python-falsy empty —
due date becomes the far-future date), compared as a code-point string. -/
def dueDateKey (todo : Todo) : List Char :=
  match todo.due_date with
  | some s => if s = "" then "9999-12-31".data else s.data
  | none => "9999-12-31".data

/-- Key of the default sort:
`(x.get('completed', False), get_priority_sort_order(...), x.get('due_date') or '9999-12-31')`,
compared lexicographically as Python compares tuples. -/
def defaultSortKey (todo : Todo) : Bool ×ₗ Nat ×ₗ List Char :=
  toLex (todo.completed, toLex (get_priority_sort_order todo.priority, dueDateKey todo))

/-- Key of the `'priority'` sort mode. -/
def prioritySortKey (todo : Todo) : Bool ×ₗ Nat :=
  toLex (todo.completed, get_priority_sort_order todo.priority)

/-- Key of the `'due_date'` sort mode. -/
def dueDateSortKey (todo : Todo) : Bool ×ₗ List Char :=
  toLex (todo.completed, dueDateKey todo)

/-- Key of the `'created'` sort mode: `x.get('created_at', '')`. -/
def createdSortKey (todo : Todo) : List Char :=
  todo.created_at.data

/-- The stable-sort comparison derived from a key function: `a` may stay
before `b` iff `key a ≤ key b`. -/
def keyLe {κ : Type} [LinearOrder κ] (key : Todo → κ) (a b : Todo) : Bool :=
  decide (key a ≤ key b)

/-- The stable-sort comparison for `sorted(..., reverse=True)`: `a` may
stay before `b` iff `key b ≤ key a` (equal keys keep input order). -/
def keyGe {κ : Type} [LinearOrder κ] (key : Todo → κ) (a b : Todo) : Bool :=
  decide (key b ≤ key a)

/-- `ui_components.sort_todos`: sort by the selected criterion;
anything other than the three named modes takes the default branch. -/
def sort_todos (todos : List Todo) (sort_by : String) : List Todo :=
  if sort_by = "priority" then todos.mergeSort (keyLe prioritySortKey)
  else if sort_by = "due_date" then todos.mergeSort (keyLe dueDateSortKey)
  else if sort_by = "created" then todos.mergeSort (keyGe createdSortKey)
  else todos.mergeSort (keyLe defaultSortKey)

/-- The default-sort order exactly as §4.4 of the spec words it:
non-completed before completed; within equal completion the severity
rank (high 1 < medium 2 < low 3); within equal completion and rank the
due date ascending with missing due dates last. -/
def defaultOrder (a b : Todo) : Prop :=
  (a.completed = false ∧ b.completed = true)
  ∨ (a.completed = b.completed
      ∧ (get_priority_sort_order a.priority < get_priority_sort_order b.priority
         ∨ (get_priority_sort_order a.priority = get_priority_sort_order b.priority
            ∧ dueDateKey a ≤ dueDateKey b)))

/-! ## Subtask statistics (`db_helpers.py` / `ui_components.py`) -/

structure SubtaskStats where
  total : Nat
  completed : Nat
  percentage : ℚ
deriving DecidableEq

/-- `db_helpers.get_subtask_completion` on the subtask rows of a todo:
`percentage = round(completed / total * 100 if total > 0 else 0, 1)`.
The float arithmetic is modelled exactly: `completed / total` and the
product with 100 are each rounded to binary64 (`flN`), and `round`
rounds the resulting double to one decimal, ties to even, returning the
nearest double (`pyRoundFloat1`).  The stored `percentage` is the exact
rational value of that final double (the `int` 0 when there are no
subtasks). -/
def get_subtask_completion (subtasks : List Subtask) : SubtaskStats :=
  let total := subtasks.length
  let completed := (subtasks.filter (fun s => s.completed)).length
  { total := total
    completed := completed
    percentage := if 0 < total
      then ratOfPair (pyRoundFloat1 (float64Mul100 (flN completed total)))
      else 0 }

/-- `ui_components.render_subtask_progress`. -/
def render_subtask_progress (stats : SubtaskStats) : String :=
  if stats.total = 0 then ""
  else "✓ " ++ pyNatStr stats.completed ++ "/" ++ pyNatStr stats.total
       ++ " subtasks (" ++ ratRepr1 stats.percentage ++ "%)"

/-! ## File validation and icons (`storage_helpers.py` / `ui_components.py`) -/

/-- The extension as both `validate_file_upload` and `get_file_icon`
compute it: `file_name.rsplit('.', 1)[-1].lower() if '.' in file_name
else ''` — the lowercased segment after the last dot, empty when the
name has no dot (or ends with one). -/
def extOf (file_name : String) : String :=
  if '.' ∈ file_name.data then
    String.mk (((file_name.data.reverse.takeWhile (fun c => c != '.')).reverse).map Char.toLower)
  else ""

/-- `storage_helpers.validate_file_upload` (the file size is read from
the file handle before the checks).  The size message interpolates
`f"{file_size / 1024 / 1024:.1f}"` and
`f"{MAX_FILE_SIZE_BYTES / 1024 / 1024}"`; the latter is the float
`10.0`, printed `"10.0"`. -/
def validate_file_upload (file_size : Nat) (file_name : String) : Bool × Option String :=
  if MAX_FILE_SIZE_BYTES < file_size then
    (false, some ("File size (" ++ pyFix1OfDiv file_size (1024 * 1024)
      ++ " MB) exceeds maximum (10.0 MB)"))
  else
    let file_extension := extOf file_name
    if file_extension = "" then
      (false, some "File must have an extension")
    else if ALLOWED_FILE_TYPES.contains file_extension then
      (true, none)
    else
      (false, some ("File type '." ++ file_extension
        ++ "' is not allowed. Allowed types: "
        ++ String.intercalate ", " ALLOWED_FILE_TYPES))

/-- `ui_components.get_file_icon` (identical to the copy in
`storage_helpers.py`): `FILE_ICONS.get(extension, FILE_ICONS['default'])`. -/
def get_file_icon (file_name : String) : String :=
  (FILE_ICONS.lookup (extOf file_name)).getD ((FILE_ICONS.lookup "default").getD "")

/-! ## Concrete records used by the scenario parts of the claims -/

/-- §8 scenario: first created todo — priority high, no due date. -/
def scenarioHighTodo : Todo :=
  { task := "write report", description := none, completed := false,
    priority := "high", due_date := none,
    created_at := "2026-10-12 09:00", todo_tags := [] }

/-- §8 scenario: second created todo — priority low, due tomorrow. -/
def scenarioLowTodo : Todo :=
  { task := "water plants", description := none, completed := false,
    priority := "low", due_date := some "2026-10-13",
    created_at := "2026-10-12 09:01", todo_tags := [] }

/-- A todo whose task text is "buy milk" (case-insensitivity example). -/
def milkTodo : Todo :=
  { task := "buy milk", description := none, completed := false,
    priority := "medium", due_date := none,
    created_at := "2026-10-12", todo_tags := [] }

/-- A todo tagged with tag ids 1 and 2 (OR-semantics example). -/
def taggedTodo : Todo :=
  { task := "tagged", description := none, completed := false,
    priority := "medium", due_date := none,
    created_at := "2026-10-12",
    todo_tags := [ { tag_id := 1, tags := some { name := "home" } },
                   { tag_id := 2, tags := some { name := "work" } } ] }

/-- Sixteen subtasks, one of them completed: completion ratio 1/16,
i.e. exactly 6.25%, a tie for one-decimal rounding. -/
def sixteenSubtasks : List Subtask :=
  { title := "done", completed := true }
    :: List.replicate 15 { title := "open", completed := false }

/-! ## Auxiliary lemmas -/

theorem digitChar_toNat_lt {k : Nat} (hk : k < 10) : (Nat.digitChar k).toNat < 64 := by
  interval_cases k <;> decide

theorem toDigitsCore_toNat_lt (fuel : Nat) :
    ∀ (n : Nat) (ds : List Char), (∀ c ∈ ds, c.toNat < 64) →
      ∀ c ∈ Nat.toDigitsCore 10 fuel n ds, c.toNat < 64 := by
  induction fuel with
  | zero =>
    intro n ds hds c hc
    exact hds c hc
  | succ fuel ih =>
    intro n ds hds c hc
    rw [Nat.toDigitsCore] at hc
    have hd : ∀ c ∈ (Nat.digitChar (n % 10) :: ds), c.toNat < 64 := by
      intro c hc
      rcases List.mem_cons.mp hc with h | h
      · exact h ▸ digitChar_toNat_lt (Nat.mod_lt _ (by omega))
      · exact hds c h
    by_cases h0 : n / 10 = 0
    · rw [if_pos h0] at hc
      exact hd c hc
    · rw [if_neg h0] at hc
      exact ih (n / 10) _ hd c hc

theorem pyNatStr_toNat_lt (n : Nat) : ∀ c ∈ (pyNatStr n).data, c.toNat < 64 :=
  toDigitsCore_toNat_lt (n + 1) n [] (by simp)

theorem pyFix1OfDiv_toNat_lt (num den : Nat) :
    ∀ c ∈ (pyFix1OfDiv num den).data, c.toNat < 64 := by
  intro c hc
  simp only [pyFix1OfDiv, String.data_append, List.mem_append] at hc
  rcases hc with (h | h) | h
  · exact pyNatStr_toNat_lt _ c h
  · rw [List.mem_singleton.mp h]
    decide
  · exact pyNatStr_toNat_lt _ c h

/-- Two-element tails of equal appended lists agree. -/
theorem append_pair_inj {w v : List Char} {a b c d : Char}
    (h : w ++ [a, b] = v ++ [c, d]) : a = c ∧ b = d := by
  have h2 := (List.append_inj' h rfl).2
  injection h2 with h3 h4
  injection h4 with h5 _
  exact ⟨h3, h5⟩

/-- A two-character unit marker is not a suffix when the appended tail
ends in a three-character marker with a different middle character. -/
theorem not_pair_suffix_triple {x y z b : Char} (h : x ≠ z) (ds : List Char) :
    ¬ ([x, b] <:+ ds ++ [y, z, b]) := by
  rintro ⟨t, ht⟩
  rw [show ds ++ [y, z, b] = (ds ++ [y]) ++ [z, b] from by simp] at ht
  exact h (append_pair_inj ht).1

/-- A three-character unit marker is not a suffix when the appended tail
ends in a two-character marker with a different first character. -/
theorem not_triple_suffix_pair {x y z b : Char} (h : y ≠ z) (ds : List Char) :
    ¬ ([x, y, b] <:+ ds ++ [z, b]) := by
  rintro ⟨t, ht⟩
  rw [show t ++ [x, y, b] = (t ++ [x]) ++ [y, b] from by simp] at ht
  exact h (append_pair_inj ht).1

/-- Two three-character unit markers with different middle characters:
not a suffix. -/
theorem not_triple_suffix_triple {x y z w b : Char} (h : y ≠ w) (ds : List Char) :
    ¬ ([x, y, b] <:+ ds ++ [z, w, b]) := by
  rintro ⟨t, ht⟩
  rw [show t ++ [x, y, b] = (t ++ [x]) ++ [y, b] from by simp,
      show ds ++ [z, w, b] = (ds ++ [z]) ++ [w, b] from by simp] at ht
  exact h (append_pair_inj ht).1

/-! ## C6: time-spent formatting -/

/-- C6: `format_time_spent` renders `m < 60` as `"{m}m"`, an exact hour
count as `"{h}h"`, and otherwise `"{h}h {r}m"`; the output contains the
character `h` iff `m ≥ 60`, and a zero remainder is never shown
(120 renders as `"2h"`, not `"2h 0m"`). -/
theorem format_time_spent_spec (m : Nat) :
    format_time_spent m =
      (if m < 60 then pyNatStr m ++ "m"
       else if m % 60 = 0 then pyNatStr (m / 60) ++ "h"
       else pyNatStr (m / 60) ++ "h " ++ pyNatStr (m % 60) ++ "m")
    ∧ ('h' ∈ (format_time_spent m).data ↔ 60 ≤ m)
    ∧ format_time_spent 120 = "2h"
    ∧ format_time_spent 120 ≠ "2h 0m" := by
  refine ⟨rfl, ?_, by decide, by decide⟩
  rw [show format_time_spent m =
      (if m < 60 then pyNatStr m ++ "m"
       else if m % 60 = 0 then pyNatStr (m / 60) ++ "h"
       else pyNatStr (m / 60) ++ "h " ++ pyNatStr (m % 60) ++ "m") from rfl]
  split_ifs with h1 h2
  · constructor
    · intro hc
      simp only [String.data_append, List.mem_append] at hc
      rcases hc with h | h
      · have := pyNatStr_toNat_lt m 'h' h
        simp at this
      · simp at h
    · omega
  · constructor
    · intro _; omega
    · intro _
      simp only [String.data_append, List.mem_append]
      right
      simp
  · constructor
    · intro _; omega
    · intro _
      simp only [String.data_append, List.mem_append]
      left; left; right
      simp

/-! ## C7: file-size formatting -/

/-- C7: `format_file_size` uses the `" B"` rendering exactly for byte
counts below 1024, the one-decimal `" KB"` rendering exactly for counts
in `[1024, 2^20)`, and the one-decimal `" MB"` rendering otherwise; the
three unit suffixes characterise the branches. -/
theorem format_file_size_spec (b : Nat) :
    format_file_size b =
      (if b < 1024 then pyNatStr b ++ " B"
       else if b < 1048576 then pyFix1OfDiv b 1024 ++ " KB"
       else pyFix1OfDiv b 1048576 ++ " MB")
    ∧ (" B".data <:+ (format_file_size b).data ↔ b < 1024)
    ∧ (" KB".data <:+ (format_file_size b).data ↔ 1024 ≤ b ∧ b < 1048576)
    ∧ (" MB".data <:+ (format_file_size b).data ↔ 1048576 ≤ b) := by
  have hq : format_file_size b =
      (if b < 1024 then pyNatStr b ++ " B"
       else if b < 1048576 then pyFix1OfDiv b 1024 ++ " KB"
       else pyFix1OfDiv b 1048576 ++ " MB") := rfl
  refine ⟨hq, ?_, ?_, ?_⟩ <;> rw [hq] <;> split_ifs with h1 h2 <;>
    simp only [String.data_append]
  · exact iff_of_true (List.suffix_append _ _) h1
  · exact iff_of_false (not_pair_suffix_triple (by decide) _) (by omega)
  · exact iff_of_false (not_pair_suffix_triple (by decide) _) (by omega)
  · exact iff_of_false (not_triple_suffix_pair (by decide) _) (by omega)
  · exact iff_of_true (List.suffix_append _ _) ⟨by omega, h2⟩
  · exact iff_of_false (not_triple_suffix_triple (by decide) _) (by omega)
  · exact iff_of_false (not_triple_suffix_pair (by decide) _) (by omega)
  · exact iff_of_false (not_triple_suffix_triple (by decide) _) (by omega)
  · exact iff_of_true (List.suffix_append _ _) (by omega)

/-! ## C5: due-date status

The claim's "due soon iff within 3 days of now inclusive" does not match
the source: the source tests `(due - now).days <= 3`, and `.days` of a
timedelta is its floor in whole days, so every due date strictly below
`now + 4 days` — e.g. `now + 3 days + 1 hour` — is still reported as due
soon.  The boundary therefore sits at 4 days, not at 3 days. -/

/-- C5 counterexample: at `now = 0` a due date of 3 days + 1 hour from
now is not within 3 days of now, yet the code reports the due-soon
indicator. -/
theorem get_due_date_status_three_day_boundary :
    get_due_date_status (some (3 * 86400 + 3600)) 0 = "🟡"
    ∧ ¬ ((3 * 86400 + 3600 : Int) ≤ 0 + 3 * 86400) := by
  constructor
  · decide
  · decide

/-- C5 (amended): with a missing due date the status is empty; the
overdue indicator appears iff `due < now`; the due-soon indicator
appears iff `now ≤ due < now + 4 days` (the source floors the timedelta
to whole days before comparing with 3); the on-track indicator appears
iff `due ≥ now + 4 days`.  In particular one second ago is overdue, two
days ahead is due soon, and ten days ahead is on track. -/
theorem get_due_date_status_spec (now : Int) :
    get_due_date_status none now = ""
    ∧ (∀ due : Int,
        (get_due_date_status (some due) now = "🔴" ↔ due < now)
        ∧ (get_due_date_status (some due) now = "🟡" ↔ now ≤ due ∧ due < now + 4 * 86400)
        ∧ (get_due_date_status (some due) now = "✅" ↔ now + 4 * 86400 ≤ due))
    ∧ get_due_date_status (some (now - 1)) now = "🔴"
    ∧ get_due_date_status (some (now + 2 * 86400)) now = "🟡"
    ∧ get_due_date_status (some (now + 10 * 86400)) now = "✅" := by
  have hdays : ∀ d : Int, timedeltaDays d = d / 86400 := fun d =>
    Int.fdiv_eq_ediv d (by norm_num)
  have hmain : ∀ due : Int,
      (get_due_date_status (some due) now = "🔴" ↔ due < now)
      ∧ (get_due_date_status (some due) now = "🟡" ↔ now ≤ due ∧ due < now + 4 * 86400)
      ∧ (get_due_date_status (some due) now = "✅" ↔ now + 4 * 86400 ≤ due) := by
    intro due
    simp only [get_due_date_status, hdays]
    split_ifs with h1 h2
    · refine ⟨iff_of_true rfl h1, iff_of_false (by simp) (by omega), iff_of_false (by simp) (by omega)⟩
    · refine ⟨iff_of_false (by simp) (by omega), iff_of_true rfl (by omega), iff_of_false (by simp) (by omega)⟩
    · refine ⟨iff_of_false (by simp) (by omega), iff_of_false (by simp) (by omega), iff_of_true rfl (by omega)⟩
  refine ⟨rfl, hmain, ?_, ?_, ?_⟩
  · exact (hmain (now - 1)).1.mpr (by omega)
  · exact ((hmain (now + 2 * 86400)).2.1).mpr (by omega)
  · exact ((hmain (now + 10 * 86400)).2.2).mpr (by omega)

/-! ## C8: subtask completion statistics

The claim's tie-break "half away from zero" does not match the source:
Python's `round` rounds ties to even on the value of the double it is
given.  One completed subtask out of 16 gives exactly 6.25% (the float
arithmetic is exact there, the denominator being a power of two), which
the code rounds down to 6.2, not up to 6.3.  For denominators that are
not powers of two the float arithmetic itself intervenes: 3 of 2000
subtasks is exactly 0.15%, but the computed double is
0.1499999999999999944…, strictly below the tie, so the code yields 0.1
— the embedding models the whole binary64 pipeline, not the exact
rational. -/

/-- Unequal dyadic pairs denote unequal rationals (by
cross-multiplication). -/
theorem ratOfPair_ne {p q : Nat × Nat} (hp : 0 < p.2) (hq : 0 < q.2)
    (h : p.1 * q.2 ≠ q.1 * p.2) : ratOfPair p ≠ ratOfPair q := by
  intro he
  apply h
  unfold ratOfPair at he
  rw [div_eq_div_iff ((Nat.cast_pos.mpr hp).ne') ((Nat.cast_pos.mpr hq).ne')] at he
  exact_mod_cast he

/-- C8 counterexample: 1 completed subtask of 16 is an exactly
representable tie (6.25%); the code returns the double 6.2 (ties to
even), which is neither the exact 6.3 nor the double 6.3 that rounding
half away from zero would produce. -/
theorem get_subtask_completion_rounding_tie :
    (get_subtask_completion sixteenSubtasks).total = 16
    ∧ (get_subtask_completion sixteenSubtasks).completed = 1
    ∧ (get_subtask_completion sixteenSubtasks).percentage = ratOfPair (flN 62 10)
    ∧ roundHalfAwayFromZero1 (1 * 100) 16 = 63 / 10
    ∧ (get_subtask_completion sixteenSubtasks).percentage ≠ 63 / 10
    ∧ (get_subtask_completion sixteenSubtasks).percentage ≠ ratOfPair (flN 63 10) := by
  have hperc : (get_subtask_completion sixteenSubtasks).percentage
      = ratOfPair (pyRoundFloat1 (float64Mul100 (flN 1 16))) := rfl
  have hpipe : pyRoundFloat1 (float64Mul100 (flN 1 16)) = flN 62 10 := by decide
  refine ⟨by decide, by decide, ?_, ?_, ?_, ?_⟩
  · rw [hperc, hpipe]
  · have h : roundHalfAwayFromZero1 (1 * 100) 16 = ((63 : Nat) : ℚ) / 10 := rfl
    rw [h]; norm_num
  · rw [hperc, hpipe, show (63 : ℚ) / 10 = ratOfPair (63, 10) from by norm_num [ratOfPair]]
    exact ratOfPair_ne (by decide) (by decide) (by decide)
  · rw [hperc, hpipe]
    exact ratOfPair_ne (by decide) (by decide) (by decide)

/-- C8 (amended): `get_subtask_completion` returns the subtask count,
the count of completed subtasks, and the percentage
`round(completed / total * 100, 1)` computed in binary64: the quotient
and the product are each correctly rounded doubles, and `round` rounds
the resulting double to one decimal, correctly with ties to even,
returning the nearest double — not the exact rational rounded half away
from zero.  On 3 of 2000 the computed double sits just below the 0.15
tie, so the result is the double 0.1 (not 0.2).  With zero subtasks the
percentage is 0 and `render_subtask_progress` renders no progress
text. -/
theorem get_subtask_completion_spec (subtasks : List Subtask) :
    (get_subtask_completion subtasks).total = subtasks.length
    ∧ (get_subtask_completion subtasks).completed
        = (subtasks.filter (fun s => s.completed)).length
    ∧ (get_subtask_completion subtasks).percentage
        = (if 0 < subtasks.length
           then ratOfPair (pyRoundFloat1 (float64Mul100
              (flN (subtasks.filter (fun s => s.completed)).length subtasks.length)))
           else 0)
    ∧ ratOfPair (pyRoundFloat1 (float64Mul100 (flN 3 2000))) = ratOfPair (flN 1 10)
    ∧ ratOfPair (pyRoundFloat1 (float64Mul100 (flN 3 2000))) ≠ ratOfPair (flN 2 10)
    ∧ (subtasks.length = 0 →
        (get_subtask_completion subtasks).percentage = 0
        ∧ render_subtask_progress (get_subtask_completion subtasks) = "") := by
  refine ⟨rfl, rfl, rfl, ?_, ?_, fun h => ⟨?_, ?_⟩⟩
  · rw [show pyRoundFloat1 (float64Mul100 (flN 3 2000)) = flN 1 10 from by decide]
  · rw [show pyRoundFloat1 (float64Mul100 (flN 3 2000)) = flN 1 10 from by decide]
    exact ratOfPair_ne (by decide) (by decide) (by decide)
  · simp [get_subtask_completion, h]
  · simp [render_subtask_progress, get_subtask_completion, h]

/-- C8 witness: the zero-subtask case at the empty list. -/
theorem get_subtask_completion_spec_witness :
    (get_subtask_completion ([] : List Subtask)).percentage = 0
    ∧ render_subtask_progress (get_subtask_completion ([] : List Subtask)) = "" :=
  (get_subtask_completion_spec []).2.2.2.2.2 rfl

/-! ## C1: file-upload validation -/

/-- C1: `validate_file_upload` always returns a boolean-plus-message
pair, applying its checks in order — size first (strictly above the
10 MB limit fails, naming the actual size and the limit in MB), then
presence of an extension, then the allow-list — and passes exactly when
all three hold.  A file of exactly the maximum size passes, one byte
over fails with the size reason, `"report"` fails with the
missing-extension reason, `"virus.exe"` fails with the disallowed-type
reason. -/
theorem validate_file_upload_spec (file_size : Nat) (file_name : String) :
    validate_file_upload file_size file_name =
      (if MAX_FILE_SIZE_BYTES < file_size then
        (false, some ("File size (" ++ pyFix1OfDiv file_size (1024 * 1024)
          ++ " MB) exceeds maximum (10.0 MB)"))
      else if extOf file_name = "" then
        (false, some "File must have an extension")
      else if extOf file_name ∈ ALLOWED_FILE_TYPES then
        (true, none)
      else
        (false, some ("File type '." ++ extOf file_name
          ++ "' is not allowed. Allowed types: "
          ++ String.intercalate ", " ALLOWED_FILE_TYPES)))
    ∧ ((validate_file_upload file_size file_name).1 = true
        ↔ file_size ≤ MAX_FILE_SIZE_BYTES ∧ extOf file_name ≠ ""
          ∧ extOf file_name ∈ ALLOWED_FILE_TYPES)
    ∧ validate_file_upload MAX_FILE_SIZE_BYTES "report.pdf" = (true, none)
    ∧ validate_file_upload (MAX_FILE_SIZE_BYTES + 1) "report.pdf"
        = (false, some "File size (10.0 MB) exceeds maximum (10.0 MB)")
    ∧ validate_file_upload 0 "report"
        = (false, some "File must have an extension")
    ∧ validate_file_upload 0 "virus.exe"
        = (false, some ("File type '.exe' is not allowed. Allowed types: "
            ++ "pdf, doc, docx, txt, md, jpg, jpeg, png, gif, svg, zip, rar, 7z, "
            ++ "csv, xlsx, xls, mp4, mov, avi, mp3, wav")) := by
  have heq : validate_file_upload file_size file_name =
      (if MAX_FILE_SIZE_BYTES < file_size then
        (false, some ("File size (" ++ pyFix1OfDiv file_size (1024 * 1024)
          ++ " MB) exceeds maximum (10.0 MB)"))
      else if extOf file_name = "" then
        (false, some "File must have an extension")
      else if extOf file_name ∈ ALLOWED_FILE_TYPES then
        (true, none)
      else
        (false, some ("File type '." ++ extOf file_name
          ++ "' is not allowed. Allowed types: "
          ++ String.intercalate ", " ALLOWED_FILE_TYPES))) := by
    simp only [validate_file_upload, List.contains_eq_any_beq, List.any_beq]
  refine ⟨heq, ?_, by decide, by decide, by decide, by decide⟩
  rw [heq]
  split_ifs with h1 h2 h3
  · refine iff_of_false (by simp) ?_
    rintro ⟨hle, -, -⟩
    omega
  · exact iff_of_false (by simp) (fun h => h.2.1 h2)
  · exact iff_of_true rfl ⟨by omega, h2, h3⟩
  · exact iff_of_false (by simp) (fun h => h3 h.2.2)

/-! ## C10: extension extraction and icon lookup

The extension is the lowercased segment after the last dot (empty
without a dot or with a trailing dot), as the claim says.  Two of the
claim's consequences fail on the code, however: `"backup.tar.GZ"` does
have extension `"gz"`, but `"gz"` is not in `ALLOWED_FILE_TYPES`
(documents/images/archives/spreadsheets/video/audio, with only
zip/rar/7z among archives), so the file is rejected, not accepted; and
the claimed equivalence "default icon iff the extension is absent from
the icon table" fails for the key `"default"` itself: `FILE_ICONS`
contains the sentinel row `('default', '📎')`, so a file named e.g.
`"backup.default"` has an extension that is present in the table and
still receives the default icon. -/

/-- C10 counterexample: `"backup.tar.GZ"` has extension `"gz"` yet is
rejected with the disallowed-type reason rather than accepted; and the
extension of `"backup.default"` is a key of the icon table, yet the
default icon is returned. -/
theorem get_file_icon_default_key :
    (extOf "backup.tar.GZ" = "gz"
      ∧ (validate_file_upload 0 "backup.tar.GZ").1 = false)
    ∧ (get_file_icon "backup.default" = "📎"
      ∧ (FILE_ICONS.lookup (extOf "backup.default")).isSome = true) := by
  exact ⟨⟨by decide, by decide⟩, ⟨by decide, by decide⟩⟩

/-- C10 (amended): the extension used by both file validation and icon
selection is the lowercased segment after the last dot — empty when the
name has no dot or ends with a dot, so `"file."` is rejected with the
missing-extension reason; only the last segment is checked against the
allow-list, so the multi-dot `"backup.tar.ZIP"` (extension `"zip"`) is
accepted while `"backup.tar.GZ"` (extension `"gz"`, not allow-listed) is
rejected with the disallowed-type reason; `get_file_icon` returns the
default icon exactly when this extension is absent from the icon table
or is the literal key `"default"` itself. -/
theorem extension_semantics_spec :
    (∀ s : String, '.' ∉ s.data → extOf s = "")
    ∧ (∀ a : String, extOf (a ++ ".") = "")
    ∧ (∀ a b : String, '.' ∉ b.data → extOf (a ++ "." ++ b) = lowerStr b)
    ∧ (∀ (fs : Nat) (fn : String), extOf fn = "" → fs ≤ MAX_FILE_SIZE_BYTES →
        validate_file_upload fs fn = (false, some "File must have an extension"))
    ∧ validate_file_upload 0 "file." = (false, some "File must have an extension")
    ∧ extOf "backup.tar.GZ" = "gz"
    ∧ validate_file_upload 0 "backup.tar.ZIP" = (true, none)
    ∧ (validate_file_upload 0 "backup.tar.GZ").1 = false
    ∧ (∀ fn : String, get_file_icon fn = "📎"
        ↔ (FILE_ICONS.lookup (extOf fn) = none ∨ extOf fn = "default")) := by
  refine ⟨?_, ?_, ?_, ?_, by decide, by decide, by decide, by decide, ?_⟩
  · intro s hs
    simp [extOf, hs]
  · intro a
    have hmem : '.' ∈ (a ++ ".").data := by
      rw [String.data_append]
      exact List.mem_append.mpr (Or.inr (by simp))
    simp [extOf, hmem]
  · intro a b hb
    have hmem : '.' ∈ (a ++ "." ++ b).data := by
      simp only [String.data_append]
      exact List.mem_append.mpr (Or.inl (List.mem_append.mpr (Or.inr (by simp))))
    have hpos : ∀ c ∈ b.data.reverse, (c != '.') = true := by
      intro c hc
      have : c ∈ b.data := List.mem_reverse.mp hc
      simp only [bne_iff_ne, ne_eq]
      intro hcdot
      exact hb (hcdot ▸ this)
    rw [extOf, if_pos hmem]
    simp only [String.data_append, List.reverse_append]
    rw [show ("." : String).data.reverse ++ a.data.reverse
        = '.' :: a.data.reverse from rfl]
    rw [List.takeWhile_append_of_pos hpos]
    rw [List.takeWhile_cons_of_neg (by simp)]
    simp [lowerStr]
  · intro fs fn hext hfs
    simp only [validate_file_upload]
    rw [if_neg (by omega), if_pos hext]
  · intro fn
    unfold get_file_icon
    cases h : FILE_ICONS.lookup (extOf fn) with
    | none =>
      rw [show (FILE_ICONS.lookup "default").getD "" = "📎" from by decide]
      simp [h]
    | some icon =>
      simp only [h, Option.getD_some]
      constructor
      · intro hicon
        subst hicon
        obtain ⟨l1, l2, hsplit, -⟩ := List.lookup_eq_some_iff.mp h
        have hmem : (extOf fn, ("📎" : String)) ∈ FILE_ICONS := by
          rw [hsplit]
          exact List.mem_append.mpr (Or.inr (List.mem_cons_self _ _))
        right
        simpa [FILE_ICONS, Prod.mk.injEq] using hmem
      · rintro (hnone | hdef)
        · simp at hnone
        · rw [hdef] at h
          rw [show FILE_ICONS.lookup "default" = some "📎" from by decide] at h
          injection h with h
          exact h.symm

/-- C10 witness: the extension rules instantiated at concrete names. -/
theorem extension_semantics_spec_witness :
    extOf "file" = ""
    ∧ extOf ("name" ++ ".") = ""
    ∧ extOf ("backup.tar" ++ "." ++ "GZ") = lowerStr "GZ"
    ∧ validate_file_upload 0 "file" = (false, some "File must have an extension") :=
  ⟨extension_semantics_spec.1 "file" (by decide),
   extension_semantics_spec.2.1 "name",
   extension_semantics_spec.2.2.1 "backup.tar" "GZ" (by decide),
   extension_semantics_spec.2.2.2.1 0 "file" (by decide) (Nat.zero_le _)⟩

/-! ## C3: client-side search -/

theorem if_chain_or {α : Type} (a b c : Bool) (x y : α) :
    (if a then x else if b then x else if c then x else y)
      = (if a || b || c then x else y) := by
  cases a <;> cases b <;> cases c <;> simp

theorem isSubstr_empty_right {ql : String} (hql : ql.data ≠ []) :
    isSubstr ql "" = false := by
  simp only [isSubstr, decide_eq_false_iff_not]
  rw [List.infix_nil]
  exact hql

theorem searchFilter_eq_filter {ql : String} (hql : ql.data ≠ []) :
    ∀ todos : List Todo, searchFilter ql todos = todos.filter (matchesQuery ql) := by
  intro todos
  induction todos with
  | nil => rfl
  | cons t rest ih =>
    have hdesc : (match t.description with
                  | some d => d != "" && isSubstr ql (lowerStr d)
                  | none => false)
               = (match t.description with
                  | some d => isSubstr ql (lowerStr d)
                  | none => false) := by
      cases hd : t.description with
      | none => rfl
      | some d =>
        by_cases hde : d = ""
        · subst hde
          simp only [bne_self_eq_false, Bool.false_and]
          exact (isSubstr_empty_right hql).symm
        · simp [hde]
    have htags : (!t.todo_tags.isEmpty
          && ((tagNamesLower t).any fun nm => isSubstr ql nm))
        = ((tagNamesLower t).any fun nm => isSubstr ql nm) := by
      cases ht : t.todo_tags with
      | nil => simp [tagNamesLower, ht]
      | cons a l => simp [ht]
    simp only [searchFilter]
    rw [if_chain_or, List.filter_cons, ih]
    have hcond : (isSubstr ql (lowerStr t.task)
          || (match t.description with
              | some d => d != "" && isSubstr ql (lowerStr d)
              | none => false)
          || (!t.todo_tags.isEmpty
              && ((tagNamesLower t).any fun nm => isSubstr ql nm)))
        = matchesQuery ql t := by
      rw [hdesc, htags]
      rfl
    rw [hcond]

/-- C3: searching with the empty query is the identity; a non-empty
query keeps exactly the todos whose lowercased task text, lowercased
description (when present) or some lowercased tag name contains the
lowercased query as a substring (in input order); the search is
case-insensitive, so `"MILK"` matches the task `"buy milk"`. -/
theorem search_todos_spec (todos : List Todo) (q : String) :
    search_todos todos q =
      (if q = "" then todos else todos.filter (matchesQuery (lowerStr q)))
    ∧ search_todos [milkTodo] "MILK" = [milkTodo] := by
  constructor
  · unfold search_todos
    split_ifs with h
    · rfl
    · apply searchFilter_eq_filter
      intro hnil
      apply h
      have hdata : q.data = [] := by
        have : q.data.map Char.toLower = [] := hnil
        simpa using this
      exact congrArg String.mk hdata
  · decide

/-! ## C4: tag filtering -/

theorem tagFilterLoop_eq_filter (sel : List Nat) :
    ∀ todos : List Todo, tagFilterLoop sel todos
      = todos.filter (fun t => decide (∃ i ∈ sel, i ∈ todoTagIds t)) := by
  intro todos
  induction todos with
  | nil => rfl
  | cons t rest ih =>
    simp only [tagFilterLoop]
    rw [List.filter_cons, ih]
    have hcond : (!t.todo_tags.isEmpty
          && (sel.any fun i => (todoTagIds t).contains i))
        = decide (∃ i ∈ sel, i ∈ todoTagIds t) := by
      cases ht : t.todo_tags with
      | nil => simp [todoTagIds, ht]
      | cons a l =>
        rw [Bool.eq_iff_iff]
        simp [todoTagIds, ht, List.any_eq_true]
    rw [hcond]

/-- C4: filtering by an empty tag selection is the identity; a non-empty
selection keeps exactly the todos whose assigned tag ids intersect the
selected ids (OR semantics): a todo tagged with ids 1 and 2 is retained
when filtering by 2 and 3 and dropped when filtering by 3 and 4. -/
theorem filter_todos_by_tags_spec (todos : List Todo) (sel : List Nat) :
    filter_todos_by_tags todos sel =
      (if sel = [] then todos
       else todos.filter (fun t => decide (∃ i ∈ sel, i ∈ todoTagIds t)))
    ∧ filter_todos_by_tags [taggedTodo] [2, 3] = [taggedTodo]
    ∧ filter_todos_by_tags [taggedTodo] [3, 4] = [] := by
  refine ⟨?_, by decide, by decide⟩
  unfold filter_todos_by_tags
  cases sel with
  | nil => simp
  | cons a l => simp [tagFilterLoop_eq_filter]

/-! ## C2 and C9: sorting -/

theorem keyLe_trans {κ : Type} [LinearOrder κ] (key : Todo → κ) :
    ∀ a b c : Todo, keyLe key a b → keyLe key b c → keyLe key a c := by
  intro a b c hab hbc
  simp only [keyLe, decide_eq_true_eq] at hab hbc ⊢
  exact le_trans hab hbc

theorem keyLe_total {κ : Type} [LinearOrder κ] (key : Todo → κ) :
    ∀ a b : Todo, keyLe key a b || keyLe key b a := by
  intro a b
  simp only [keyLe, Bool.or_eq_true, decide_eq_true_eq]
  exact le_total _ _

theorem keyGe_trans {κ : Type} [LinearOrder κ] (key : Todo → κ) :
    ∀ a b c : Todo, keyGe key a b → keyGe key b c → keyGe key a c := by
  intro a b c hab hbc
  simp only [keyGe, decide_eq_true_eq] at hab hbc ⊢
  exact le_trans hbc hab

theorem keyGe_total {κ : Type} [LinearOrder κ] (key : Todo → κ) :
    ∀ a b : Todo, keyGe key a b || keyGe key b a := by
  intro a b
  simp only [keyGe, Bool.or_eq_true, decide_eq_true_eq]
  exact le_total _ _

/-- A stable merge sort with a transitive total comparison is
idempotent. -/
theorem mergeSort_idem {α : Type} (le : α → α → Bool)
    (htrans : ∀ a b c, le a b → le b c → le a c)
    (htotal : ∀ a b, le a b || le b a) (l : List α) :
    (l.mergeSort le).mergeSort le = l.mergeSort le :=
  List.mergeSort_of_sorted (List.sorted_mergeSort htrans htotal l)

theorem sort_todos_default_eq (todos : List Todo) :
    sort_todos todos "default" = todos.mergeSort (keyLe defaultSortKey) := by
  unfold sort_todos
  rw [if_neg (by decide), if_neg (by decide), if_neg (by decide)]

theorem mergeSort_pair {α : Type} (le : α → α → Bool) (a b : α) :
    [a, b].mergeSort le = if le a b then [a, b] else [b, a] := by
  rw [List.mergeSort]
  simp [List.splitInTwo, List.splitAt, List.splitAt.go, List.merge]

/-- Stability of the key-based merge sort, filter form: any subsequence
selected by a predicate that is constant-key (any two selected elements
compare `≤` both ways) is unchanged by sorting. -/
theorem mergeSort_filter_stable {κ : Type} [LinearOrder κ] (key : Todo → κ)
    (p : Todo → Bool) (hp : ∀ a b : Todo, p a = true → p b = true → keyLe key a b = true)
    (l : List Todo) :
    (l.mergeSort (keyLe key)).filter p = l.filter p := by
  have hpair : (l.filter p).Pairwise (fun a b => keyLe key a b = true) := by
    apply List.pairwise_of_forall_mem_list
    intro a ha b hb
    exact hp a b (List.mem_filter.mp ha).2 (List.mem_filter.mp hb).2
  have hsub : List.Sublist (l.filter p) (l.mergeSort (keyLe key)) :=
    List.sublist_mergeSort (keyLe_trans key) (keyLe_total key) hpair
      (List.filter_sublist l)
  have hself : (l.filter p).filter p = l.filter p :=
    List.filter_eq_self.mpr (fun a ha => (List.mem_filter.mp ha).2)
  have hsub2 : List.Sublist (l.filter p) ((l.mergeSort (keyLe key)).filter p) := by
    have := hsub.filter p
    rwa [hself] at this
  have hlen : (l.filter p).length = ((l.mergeSort (keyLe key)).filter p).length :=
    (((List.mergeSort_perm l (keyLe key)).filter p).length_eq).symm
  exact (hsub2.eq_of_length hlen).symm

/-- The boolean comparison of the default sort agrees with the order of
§4.4 as worded in the spec. -/
theorem keyLe_default_iff (a b : Todo) :
    keyLe defaultSortKey a b = true ↔ defaultOrder a b := by
  simp only [keyLe, decide_eq_true_eq, defaultSortKey]
  rw [Prod.Lex.le_iff]
  simp only [Prod.Lex.le_iff]
  simp [defaultOrder, Bool.lt_iff]

/-- C2: the default sort permutes the input, orders it by the multi-key
comparison of §4.4 (non-completed first, then severity rank
high < medium < low, then due date ascending with missing due dates
last), is stable (the subsequence with any fixed key keeps its input
order), and on the §8 scenario — a non-completed high-priority todo
without a due date versus a non-completed low-priority todo due
tomorrow — puts the high-priority todo first. -/
theorem sort_todos_default_spec (todos : List Todo) :
    List.Perm (sort_todos todos "default") todos
    ∧ List.Pairwise defaultOrder (sort_todos todos "default")
    ∧ (∀ k : Bool ×ₗ Nat ×ₗ List Char,
        (sort_todos todos "default").filter (fun t => decide (defaultSortKey t = k))
          = todos.filter (fun t => decide (defaultSortKey t = k)))
    ∧ sort_todos [scenarioLowTodo, scenarioHighTodo] "default"
        = [scenarioHighTodo, scenarioLowTodo] := by
  refine ⟨?_, ?_, ?_, ?_⟩
  · rw [sort_todos_default_eq]
    exact List.mergeSort_perm todos _
  · rw [sort_todos_default_eq]
    exact List.Pairwise.imp (fun h => (keyLe_default_iff _ _).mp h)
      (List.sorted_mergeSort (keyLe_trans defaultSortKey)
        (keyLe_total defaultSortKey) todos)
  · intro k
    rw [sort_todos_default_eq]
    apply mergeSort_filter_stable defaultSortKey
    intro a b ha hb
    have ha' : defaultSortKey a = k := of_decide_eq_true ha
    have hb' : defaultSortKey b = k := of_decide_eq_true hb
    simp [keyLe, ha', hb']
  · rw [sort_todos_default_eq, mergeSort_pair, if_neg (by decide)]

/-- C9: sorting is idempotent in every mode (each mode is a stable merge
sort under a transitive, total comparison, so re-sorting a sorted list
changes nothing). -/
theorem sort_todos_idempotent (todos : List Todo) (mode : String) :
    sort_todos (sort_todos todos mode) mode = sort_todos todos mode := by
  unfold sort_todos
  split_ifs
  · exact mergeSort_idem _ (keyLe_trans prioritySortKey) (keyLe_total prioritySortKey) todos
  · exact mergeSort_idem _ (keyLe_trans dueDateSortKey) (keyLe_total dueDateSortKey) todos
  · exact mergeSort_idem _ (keyGe_trans createdSortKey) (keyGe_total createdSortKey) todos
  · exact mergeSort_idem _ (keyLe_trans defaultSortKey) (keyLe_total defaultSortKey) todos

end TodoApp
